import Mathlib

/-!
Verification development for the order-api backend.

The embedding covers, from the source:
- src/app/utils/geography.py   (haversine_km)
- src/app/services/eta.py      (calculate_order_eta and its constants)
- src/app/crud.py              (encode and decode of the pagination cursor,
                                get_orders_cursor)
- src/app/models.py            (the Order and Customer rows the above read)

Python floats are embedded as real numbers; SQL tables are embedded as lists
of rows, held in primary-key order (ids are unique and monotonically
assigned). An ORDER BY over the unique id key determines its output and is
embedded as a sort of that list; an ORDER BY over created_at determines its
output only up to the order of rows with equal keys, so the set of its
possible outputs is embedded as a predicate (pendingQueryResult), and the
engine's executable realization picks one admissible output.
Fragments of the Python standard library that the code calls (base64, UTF-8,
json.dumps and json.loads analysis of the single payload shape this codec
produces, round) are modelled explicitly below, each with a comment saying
what is modelled.
-/

namespace OrderApi

/-- Decimal digit to its character, as Python's str of an int produces. -/
def digitChar (d : Nat) : Char := Char.ofNat (48 + d)

/-- Fuel-driven decimal printer for naturals (the fuel is an upper bound on
the number; it makes the recursion structural so terms reduce in the kernel). -/
def natReprAux : Nat → Nat → List Char
  | 0, _ => []
  | fuel + 1, n =>
    if n < 10 then [digitChar n]
    else natReprAux fuel (n / 10) ++ [digitChar (n % 10)]

/-- Decimal representation of a natural number. -/
def natRepr (n : Nat) : List Char := natReprAux (n + 1) n

/-- Decimal representation of an integer, as Python's str / json.dumps emits. -/
def intRepr (k : Int) : List Char :=
  if k < 0 then '-' :: natRepr k.natAbs else natRepr k.toNat

/-- Customer row (src/app/models.py, class Customer). -/
structure Customer where
  id : Int
  full_name : String
  email : String
  latitude : ℝ
  longitude : ℝ

/-- Order row (src/app/models.py, class Order), with its customer resolved
through the relationship, as every computation below reads it. -/
structure Order where
  id : Int
  created_at : Int
  status : String
  customer : Customer

/-- ETA response shape (src/app/schemas.py, class OrderETA). -/
structure OrderETA where
  order_id : Int
  distance_km : ℝ
  eta_minutes : ℝ
  co2_grams : ℝ
  suggested_merge_with : Option Int

/-- math.radians (stdlib): degrees to radians. -/
noncomputable def radians (x : ℝ) : ℝ := x * Real.pi / 180

/-- The haversine intermediate a (local variable a of haversine_km in
src/app/utils/geography.py). -/
noncomputable def haversine_arg (lat1 lon1 lat2 lon2 : ℝ) : ℝ :=
  let phi1 := radians lat1
  let phi2 := radians lat2
  let d_phi := phi2 - phi1
  let d_lambda := radians (lon2 - lon1)
  Real.sin (d_phi / 2) ^ 2 +
    Real.cos phi1 * Real.cos phi2 * Real.sin (d_lambda / 2) ^ 2

/-- haversine_km (src/app/utils/geography.py): great-circle distance in km,
Earth radius 6371.0. -/
noncomputable def haversine_km (lat1 lon1 lat2 lon2 : ℝ) : ℝ :=
  2 * 6371.0 * Real.arcsin (Real.sqrt (haversine_arg lat1 lon1 lat2 lon2))

/-- Constant of src/app/services/eta.py. -/
noncomputable def WAREHOUSE_LAT : ℝ := 50.4501

/-- Constant of src/app/services/eta.py. -/
noncomputable def WAREHOUSE_LON : ℝ := 30.5234

/-- Constant of src/app/services/eta.py. -/
noncomputable def AVG_SPEED_KM_PER_MIN : ℝ := 0.5

/-- Constant of src/app/services/eta.py. -/
noncomputable def CO2_PER_KM_G : ℝ := 121

/-- Constant of src/app/services/eta.py. -/
noncomputable def MERGE_RADIUS_KM : ℝ := 3

/-- Modelled: Python's round(x, 2) over the real embedding of floats
(round to 2 decimal places; Mathlib's round is used for the half-way rule). -/
noncomputable def round2 (x : ℝ) : ℝ := ((round (x * 100) : ℤ) : ℝ) / 100

/-- The possible outputs of the pending-order query of calculate_order_eta
(src/app/services/eta.py): filter(status == pending, id != order_id) then
order_by(created_at). SQL returns some permutation of the filtered rows that
is ascending in created_at; the relative order of rows with equal created_at
is unspecified, because the query has no further sort key. -/
def pendingQueryResult (db : List Order) (order_id : Int) (l : List Order) : Prop :=
  l.Perm (db.filter (fun o => o.status == "pending" && o.id != order_id)) ∧
    l.Pairwise (fun a b => a.created_at ≤ b.created_at)

/-- The executable realization of the pending-order query used by the
embedded engine: a stable sort of the filtered table rows, which is one
admissible output of the ORDER BY (the source fixes only the ascending
created_at order, not the order of equal created_at values; see
pendingQueryResult). -/
def pendingCandidates (db : List Order) (order_id : Int) : List Order :=
  List.insertionSort (fun a b => a.created_at ≤ b.created_at)
    (db.filter (fun o => o.status == "pending" && o.id != order_id))

open scoped Classical

/-- The merge-search loop of calculate_order_eta (src/app/services/eta.py):
first candidate whose haversine distance from (lat, lon) is ≤ MERGE_RADIUS_KM,
scanning in list order and stopping at the first hit. -/
noncomputable def findMergeScan (lat lon : ℝ) : List Order → Option Int
  | [] => none
  | other :: rest =>
    if haversine_km lat lon other.customer.latitude other.customer.longitude
        ≤ MERGE_RADIUS_KM then
      some other.id
    else findMergeScan lat lon rest

/-- calculate_order_eta (src/app/services/eta.py). The first query
(filter by id, join customer, first()) is db.find? since ids are unique;
a missing order raises ValueError, embedded as Except.error. -/
noncomputable def calculate_order_eta (db : List Order) (order_id : Int) :
    Except String OrderETA :=
  match db.find? (fun o => o.id == order_id) with
  | none => Except.error ("Order " ++ String.mk (intRepr order_id) ++ " not found")
  | some order =>
    let lat_cust := order.customer.latitude
    let lon_cust := order.customer.longitude
    let distance := haversine_km WAREHOUSE_LAT WAREHOUSE_LON lat_cust lon_cust
    Except.ok
      ⟨order_id, round2 distance, round2 (distance / AVG_SPEED_KM_PER_MIN),
        round2 (distance * CO2_PER_KM_G),
        findMergeScan lat_cust lon_cust (pendingCandidates db order_id)⟩

/-- Modelled: value of a character in the urlsafe base64 alphabet.
base64.urlsafe_b64decode translates - to + and _ to / before the standard
decode, so both alphabets are accepted, as in the stdlib. -/
def b64Value (c : Char) : Option Nat :=
  if 65 ≤ c.toNat ∧ c.toNat ≤ 90 then some (c.toNat - 65)
  else if 97 ≤ c.toNat ∧ c.toNat ≤ 122 then some (c.toNat - 97 + 26)
  else if 48 ≤ c.toNat ∧ c.toNat ≤ 57 then some (c.toNat - 48 + 52)
  else if c = '-' then some 62
  else if c = '+' then some 62
  else if c = '_' then some 63
  else if c = '/' then some 63
  else none

/-- Modelled: character for a 6-bit value in the urlsafe base64 alphabet,
as base64.urlsafe_b64encode emits. -/
def b64Char (n : Nat) : Char :=
  if n < 26 then Char.ofNat (65 + n)
  else if n < 52 then Char.ofNat (97 + (n - 26))
  else if n < 62 then Char.ofNat (48 + (n - 52))
  else if n = 62 then '-'
  else '_'

/-- Modelled: base64.urlsafe_b64encode of a byte string, with = padding,
processing three input bytes into four alphabet characters. -/
def b64encodeBytes : List Nat → List Char
  | [] => []
  | [b1] => [b64Char (b1 / 4), b64Char (b1 % 4 * 16), '=', '=']
  | [b1, b2] =>
    [b64Char (b1 / 4), b64Char (b1 % 4 * 16 + b2 / 16), b64Char (b2 % 16 * 4), '=']
  | b1 :: b2 :: b3 :: rest =>
    b64Char (b1 / 4) :: b64Char (b1 % 4 * 16 + b2 / 16) ::
      b64Char (b2 % 16 * 4 + b3 / 64) :: b64Char (b3 % 64) :: b64encodeBytes rest

/-- Modelled: regrouping of 6-bit values into bytes for base64 decoding; a
trailing group of two or three values (completed by padding) yields one or
two bytes, a lone trailing value is invalid. -/
def b64decodeVals : List Nat → Option (List Nat)
  | [] => some []
  | [_] => none
  | [v1, v2] => some [v1 * 4 + v2 / 16]
  | [v1, v2, v3] => some [v1 * 4 + v2 / 16, v2 % 16 * 16 + v3 / 4]
  | v1 :: v2 :: v3 :: v4 :: rest =>
    (b64decodeVals rest).map
      (fun bs => (v1 * 4 + v2 / 16) :: (v2 % 16 * 16 + v3 / 4) ::
        (v3 % 4 * 64 + v4) :: bs)

/-- Modelled: base64.urlsafe_b64decode in its default lenient mode: characters
outside the alphabet are discarded, data stops at the first = sign, trailing
padding must complete the final four-character group (a trailing group of one
data character, or of two or three data characters without enough padding,
raises, embedded as none). -/
def b64decode (s : List Char) : Option (List Nat) :=
  let kept := s.filter (fun c => (b64Value c).isSome || c == '=')
  let data := kept.takeWhile (fun c => !(c == '='))
  let rest := kept.drop data.length
  if (∀ c ∈ rest, c = '=') ∧
      (data.length % 4 = 0 ∨ (data.length % 4 = 2 ∧ 2 ≤ rest.length) ∨
        (data.length % 4 = 3 ∧ 1 ≤ rest.length)) then
    b64decodeVals (data.map (fun c => (b64Value c).getD 0))
  else none

/-- Modelled: UTF-8 encoding of one character, as Python's str.encode. -/
def utf8EncodeChar (c : Char) : List Nat :=
  let n := c.toNat
  if n < 128 then [n]
  else if n < 2048 then [192 + n / 64, 128 + n % 64]
  else if n < 65536 then [224 + n / 4096, 128 + n / 64 % 64, 128 + n % 64]
  else [240 + n / 262144, 128 + n / 4096 % 64, 128 + n / 64 % 64, 128 + n % 64]

/-- Modelled: UTF-8 encoding of a string, as Python's str.encode. -/
def utf8Encode : List Char → List Nat
  | [] => []
  | c :: rest => utf8EncodeChar c ++ utf8Encode rest

/-- Is the byte a UTF-8 continuation byte. -/
def isUtf8Cont (b : Nat) : Bool := 128 ≤ b && b < 192

/-- Modelled: strict UTF-8 decoding of a byte string, as Python's
bytes.decode: overlong forms, surrogates, out-of-range code points and
truncated sequences raise, embedded as none. -/
def utf8Decode : List Nat → Option (List Char)
  | [] => some []
  | b1 :: t1 =>
    if b1 < 128 then (utf8Decode t1).map (fun cs => Char.ofNat b1 :: cs)
    else
      match t1 with
      | [] => none
      | b2 :: t2 =>
        if 194 ≤ b1 && b1 < 224 && isUtf8Cont b2 then
          (utf8Decode t2).map (fun cs => Char.ofNat ((b1 - 192) * 64 + (b2 - 128)) :: cs)
        else
          match t2 with
          | [] => none
          | b3 :: t3 =>
            if 224 ≤ b1 && b1 < 240 && isUtf8Cont b2 && isUtf8Cont b3 &&
                !(b1 == 224 && b2 < 160) && !(b1 == 237 && 160 ≤ b2) then
              (utf8Decode t3).map
                (fun cs => Char.ofNat ((b1 - 224) * 4096 + (b2 - 128) * 64 + (b3 - 128)) :: cs)
            else
              match t3 with
              | [] => none
              | b4 :: t4 =>
                if 240 ≤ b1 && b1 ≤ 244 && isUtf8Cont b2 && isUtf8Cont b3 &&
                    isUtf8Cont b4 && !(b1 == 240 && b2 < 144) &&
                    !(b1 == 244 && 144 ≤ b2) then
                  (utf8Decode t4).map
                    (fun cs => Char.ofNat ((b1 - 240) * 262144 + (b2 - 128) * 4096 +
                      (b3 - 128) * 64 + (b4 - 128)) :: cs)
                else none

/-- The seven characters json.dumps emits before the value of the single key
id: an opening brace, the quoted key, a colon and a space. -/
def jsonHead : List Char := ['\x7b', '"', 'i', 'd', '"', ':', ' ']

/-- Modelled: json.dumps of the payload dict with the single key id
(src/app/crud.py, encode side of the cursor). -/
def jsonDumpsId (k : Int) : List Char := jsonHead ++ intRepr k ++ ['\x7d']

/-- Match a fixed head of characters, returning the remainder. -/
def stripPre : List Char → List Char → Option (List Char)
  | [], s => some s
  | _ :: _, [] => none
  | p :: ps, c :: cs => if c = p then stripPre ps cs else none

/-- JSON forbids redundant leading zeros in an integer literal. -/
def jsonNumOk (cs : List Char) : Bool :=
  match cs with
  | c :: _ :: _ => !(c == '0')
  | _ => true

/-- Digit character to its value. -/
def parseDigit (c : Char) : Option Nat :=
  if 48 ≤ c.toNat ∧ c.toNat ≤ 57 then some (c.toNat - 48) else none

/-- One step of the accumulating decimal parse. -/
def pstep (acc : Option Nat) (c : Char) : Option Nat :=
  match acc, parseDigit c with
  | some a, some d => some (a * 10 + d)
  | _, _ => none

/-- Accumulating decimal parse; none as soon as a non-digit is seen. -/
def parseNatAcc (cs : List Char) : Option Nat :=
  cs.foldl pstep (some 0)

/-- Parse a non-empty all-digit string as a natural number. -/
def parseNat (cs : List Char) : Option Nat :=
  if cs.isEmpty then none else parseNatAcc cs

/-- Modelled: JSON integer literal parse, with optional minus sign and no
redundant leading zeros, as json.loads accepts. -/
def parseJsonInt (cs : List Char) : Option Int :=
  match cs with
  | [] => none
  | c :: rest =>
    if c = '-' then
      if jsonNumOk rest then (parseNat rest).map (fun n => -(n : Int)) else none
    else if jsonNumOk cs then (parseNat cs).map (fun n => (n : Int)) else none

/-- Modelled: the fragment of json.loads followed by dict get at key id that
decode needs: it accepts exactly the canonical serialization json.dumps
produces for the payload dict with the single integer key id, and yields none
on every other text, matching the observable behavior of the decoder (a parse
error or a missing key both end as None in src/app/crud.py). -/
def jsonLoadsGetId (cs : List Char) : Option Int :=
  match stripPre jsonHead cs with
  | none => none
  | some rest =>
    match rest.reverse with
    | [] => none
    | last :: revNum =>
      if last = '\x7d' then parseJsonInt revNum.reverse else none

/-- The cursor encoder of src/app/crud.py: json.dumps of the id payload,
UTF-8 encoded, then urlsafe base64. -/
def encode_cursor (o : Order) : List Char :=
  b64encodeBytes (utf8Encode (jsonDumpsId o.id))

/-- The cursor decoder of src/app/crud.py: urlsafe base64 decode, UTF-8
decode, json.loads, then get of the id key; every exception on the way is
caught and yields None, embedded as none. -/
def decode_cursor (s : List Char) : Option Int :=
  match b64decode s with
  | none => none
  | some bytes =>
    match utf8Decode bytes with
    | none => none
    | some chars => jsonLoadsGetId chars

/-- The ORDER BY id ascending of get_orders_cursor (src/app/crud.py),
embedded as a stable sort of the table rows. -/
def ordersByIdAsc (db : List Order) : List Order :=
  List.insertionSort (fun a b => a.id ≤ b.id) db

/-- get_orders_cursor (src/app/crud.py): decode the cursor if present and
truthy, filter id strictly greater when the decoded id is truthy (nonzero),
fetch limit + 1 rows, and when more than limit arrive, pop the last fetched
row and encode the popped row as the next cursor. -/
def get_orders_cursor (db : List Order) (limit : Nat) (cursor : Option (List Char)) :
    List Order × Option (List Char) :=
  let base := ordersByIdAsc db
  let filtered :=
    match cursor with
    | none => base
    | some s =>
      if s.isEmpty then base
      else
        match decode_cursor s with
        | none => base
        | some last_id =>
          if last_id = 0 then base else base.filter (fun o => last_id < o.id)
  let items := filtered.take (limit + 1)
  if items.length ≤ limit then (items, none)
  else (items.dropLast, (items.getLast?).map encode_cursor)

/-- A row builder for concrete instances: id, creation time, status, customer
coordinates. -/
noncomputable def mkOrder (i : Int) (created : Int) (st : String) (lat lon : ℝ) : Order :=
  ⟨i, created, st, ⟨i, "c", "c@example.com", lat, lon⟩⟩

/-- Three orders with ids 1, 2, 3: the failing instance for pagination. -/
noncomputable def pagDb : List Order :=
  [mkOrder 1 1 "new" 0 0, mkOrder 2 2 "new" 0 0, mkOrder 3 3 "new" 0 0]

/-- The 6-bit values of the base64 encoding of a byte string (the alphabet
characters of b64encodeBytes, before the character table and the padding). -/
def b64data : List Nat → List Nat
  | [] => []
  | [b1] => [b1 / 4, b1 % 4 * 16]
  | [b1, b2] => [b1 / 4, b1 % 4 * 16 + b2 / 16, b2 % 16 * 4]
  | b1 :: b2 :: b3 :: rest =>
    b1 / 4 :: (b1 % 4 * 16 + b2 / 16) :: (b2 % 16 * 4 + b3 / 64) :: b3 % 64 ::
      b64data rest

/-- The number of = padding characters of the base64 encoding. -/
def b64padLen : List Nat → Nat
  | [] => 0
  | [_] => 2
  | [_, _] => 1
  | _ :: _ :: _ :: rest => b64padLen rest

/-- The merge-radius test of the scan loop: haversine distance from (lat, lon)
to the candidate's customer at most MERGE_RADIUS_KM. -/
def withinR (lat lon : ℝ) (o : Order) : Prop :=
  haversine_km lat lon o.customer.latitude o.customer.longitude ≤ MERGE_RADIUS_KM

/-- The result res is the first element of cands within the merge radius of
(lat, lon), or none when no element is. -/
def firstHitIsFirst (lat lon : ℝ) (cands : List Order) (res : Option Int) : Prop :=
  (res = none ∧ ∀ o ∈ cands, ¬ withinR lat lon o) ∨
    (∃ pre o post, cands = pre ++ o :: post ∧ res = some o.id ∧
      withinR lat lon o ∧ ∀ p ∈ pre, ¬ withinR lat lon p)

/-- Ascending (created_at, id) lexicographic order on rows. -/
def createdThenId (a b : Order) : Prop :=
  a.created_at < b.created_at ∨ (a.created_at = b.created_at ∧ a.id < b.id)

/-- Three pending orders at the warehouse, ids 1, 2, 3, created in id order. -/
noncomputable def etaDb3 : List Order :=
  [mkOrder 1 0 "pending" WAREHOUSE_LAT WAREHOUSE_LON,
    mkOrder 2 10 "pending" WAREHOUSE_LAT WAREHOUSE_LON,
    mkOrder 3 20 "pending" WAREHOUSE_LAT WAREHOUSE_LON]

/-- A subject order and one pending order, both at the warehouse. -/
noncomputable def etaDb7 : List Order :=
  [mkOrder 1 0 "pending" WAREHOUSE_LAT WAREHOUSE_LON,
    mkOrder 2 5 "pending" WAREHOUSE_LAT WAREHOUSE_LON]

/-- A single order whose customer is at the warehouse. -/
noncomputable def etaDb8 : List Order :=
  [mkOrder 1 0 "new" WAREHOUSE_LAT WAREHOUSE_LON]

/-- A single order, id 4, whose customer is at the warehouse. -/
noncomputable def etaDb9 : List Order :=
  [mkOrder 4 0 "new" WAREHOUSE_LAT WAREHOUSE_LON]

/-- An order with id 0, whose encoded cursor decodes to the falsy key 0. -/
noncomputable def zeroIdOrder : Order := mkOrder 0 0 "new" 0 0

/-- Two orders with ids 5 and 6. -/
noncomputable def db10 : List Order :=
  [mkOrder 5 1 "new" 0 0, mkOrder 6 2 "new" 0 0]

/-- A subject order and two pending candidates (ids 2 and 3) sharing one
created_at value, all at the warehouse. -/
noncomputable def tieDb : List Order :=
  [mkOrder 1 0 "new" WAREHOUSE_LAT WAREHOUSE_LON,
    mkOrder 2 7 "pending" WAREHOUSE_LAT WAREHOUSE_LON,
    mkOrder 3 7 "pending" WAREHOUSE_LAT WAREHOUSE_LON]

instance : IsTotal Order (fun a b => a.created_at ≤ b.created_at) :=
  ⟨fun a b => Int.le_total a.created_at b.created_at⟩

instance : IsTrans Order (fun a b => a.created_at ≤ b.created_at) :=
  ⟨fun _ _ _ hab hbc => le_trans hab hbc⟩

lemma parseDigit_digitChar : ∀ d, d < 10 → parseDigit (digitChar d) = some d := by
  decide

lemma digitChar_ne_minus : ∀ d, d < 10 → digitChar d ≠ '-' := by
  decide

lemma digitChar_ascii : ∀ d, d < 10 → (digitChar d).toNat < 128 := by
  decide

lemma digitChar_ne_zero : ∀ d, d < 10 → 1 ≤ d → digitChar d ≠ '0' := by
  decide

lemma natReprAux_ne_nil (fuel n : Nat) (h : 0 < fuel) : natReprAux fuel n ≠ [] := by
  cases fuel with
  | zero => omega
  | succ f =>
    rw [natReprAux]
    split
    · simp
    · simp

lemma natReprAux_digits (fuel : Nat) :
    ∀ n c, c ∈ natReprAux fuel n → ∃ d, d < 10 ∧ c = digitChar d := by
  induction fuel with
  | zero => intro n c hc; simp [natReprAux] at hc
  | succ f ih =>
    intro n c hc
    rw [natReprAux] at hc
    split at hc
    · simp at hc
      exact ⟨n, by omega, hc⟩
    · rcases List.mem_append.mp hc with h | h
      · exact ih _ _ h
      · simp at h
        exact ⟨n % 10, by omega, h⟩

lemma natReprAux_parse (fuel : Nat) :
    ∀ n, n < fuel → ∀ a : Nat,
      List.foldl pstep (some a) (natReprAux fuel n) =
        some (a * 10 ^ (natReprAux fuel n).length + n) := by
  induction fuel with
  | zero => intro n h; omega
  | succ f ih =>
    intro n hn a
    rw [natReprAux]
    by_cases h10 : n < 10
    · rw [if_pos h10]
      simp [pstep, parseDigit_digitChar n h10]
    · rw [if_neg h10]
      have hdiv : n / 10 < f := by omega
      rw [List.foldl_append, ih (n / 10) hdiv a]
      simp [pstep, parseDigit_digitChar (n % 10) (by omega)]
      ring_nf
      omega

lemma parseNat_natRepr (n : Nat) : parseNat (natRepr n) = some n := by
  have hne := natReprAux_ne_nil (n + 1) n (by omega)
  rw [parseNat, if_neg (by simpa [List.isEmpty_iff] using hne), parseNatAcc, natRepr,
    natReprAux_parse (n + 1) n (by omega) 0]
  simp

lemma natRepr_small (n : Nat) (h : n < 10) : natRepr n = [digitChar n] := by
  rw [natRepr, natReprAux, if_pos h]

lemma natRepr_head_digit (n : Nat) : ∃ d t, d < 10 ∧ natRepr n = digitChar d :: t := by
  cases h : natRepr n with
  | nil => exact absurd h (natReprAux_ne_nil (n + 1) n (by omega))
  | cons c t =>
    obtain ⟨d, hd, rfl⟩ := natReprAux_digits (n + 1) n c (by rw [← natRepr, h]; simp)
    exact ⟨d, t, hd, rfl⟩

lemma natReprAux_head_ne_zero (fuel : Nat) :
    ∀ n, n < fuel → 1 ≤ n → (natReprAux fuel n).head? ≠ some '0' := by
  induction fuel with
  | zero => intro n h; omega
  | succ f ih =>
    intro n hn h1
    rw [natReprAux]
    by_cases h10 : n < 10
    · rw [if_pos h10]
      simp [digitChar_ne_zero n h10 h1]
    · rw [if_neg h10]
      rw [List.head?_append]
      have hdiv : n / 10 < f := by omega
      have hne := natReprAux_ne_nil f (n / 10) (by omega)
      cases hh : (natReprAux f (n / 10)).head? with
      | none => exact absurd (List.head?_eq_none_iff.mp hh) hne
      | some c =>
        have := ih (n / 10) hdiv (by omega)
        rw [hh] at this
        simpa using this

lemma jsonNumOk_natRepr (n : Nat) : jsonNumOk (natRepr n) = true := by
  cases h : natRepr n with
  | nil => rfl
  | cons c t =>
    cases t with
    | nil => rfl
    | cons c2 t2 =>
      have hlen : ¬ n < 10 := by
        intro h10
        rw [natRepr_small n h10] at h
        simp at h
      have hhead := natReprAux_head_ne_zero (n + 1) n (by omega) (by omega)
      rw [← natRepr, h] at hhead
      simp at hhead
      simp [jsonNumOk, hhead]

lemma parseJsonInt_intRepr (k : Int) : parseJsonInt (intRepr k) = some k := by
  rcases lt_or_ge k 0 with hneg | hpos
  · rw [intRepr, if_pos hneg, parseJsonInt, if_pos rfl, jsonNumOk_natRepr, if_pos rfl,
      parseNat_natRepr]
    simp
    rw [abs_of_neg hneg, neg_neg]
  · rw [intRepr, if_neg (not_lt.mpr hpos)]
    obtain ⟨d, t, hd, hrep⟩ := natRepr_head_digit k.toNat
    rw [hrep, parseJsonInt, if_neg (digitChar_ne_minus d hd), ← hrep, jsonNumOk_natRepr,
      if_pos rfl, parseNat_natRepr]
    simp
    omega

lemma stripPre_append (p s : List Char) : stripPre p (p ++ s) = some s := by
  induction p with
  | nil => rfl
  | cons c t ih => simp [stripPre, ih]

lemma jsonLoads_dumps (k : Int) : jsonLoadsGetId (jsonDumpsId k) = some k := by
  rw [jsonDumpsId, jsonLoadsGetId, List.append_assoc, stripPre_append]
  simp only [List.reverse_append, List.reverse_cons, List.reverse_nil, List.nil_append,
    List.singleton_append, if_true, List.reverse_reverse]
  exact parseJsonInt_intRepr k

lemma intRepr_ascii (k : Int) : ∀ c ∈ intRepr k, c.toNat < 128 := by
  intro c hc
  rw [intRepr] at hc
  have hdig : ∀ m c, c ∈ natRepr m → c.toNat < 128 := by
    intro m c hc
    obtain ⟨d, hd, rfl⟩ := natReprAux_digits (m + 1) m c hc
    exact digitChar_ascii d hd
  split at hc
  · rcases List.mem_cons.mp hc with rfl | hc'
    · decide
    · exact hdig _ _ hc'
  · exact hdig _ _ hc

lemma jsonDumpsId_ascii (k : Int) : ∀ c ∈ jsonDumpsId k, c.toNat < 128 := by
  intro c hc
  rw [jsonDumpsId] at hc
  rcases List.mem_append.mp hc with h | h
  · rcases List.mem_append.mp h with h' | h'
    · exact (by decide : ∀ x, x ∈ jsonHead → x.toNat < 128) c h'
    · exact intRepr_ascii k c h'
  · simp at h
    subst h
    decide

lemma utf8Encode_ascii (cs : List Char) (h : ∀ c ∈ cs, c.toNat < 128) :
    utf8Encode cs = cs.map Char.toNat := by
  induction cs with
  | nil => rfl
  | cons c t ih =>
    have hc : c.toNat < 128 := h c (by simp)
    rw [utf8Encode, utf8EncodeChar]
    simp only [hc, if_pos]
    rw [ih (fun x hx => h x (List.mem_cons_of_mem c hx))]
    rfl

lemma utf8Decode_encode_ascii (cs : List Char) (h : ∀ c ∈ cs, c.toNat < 128) :
    utf8Decode (utf8Encode cs) = some cs := by
  induction cs with
  | nil => rfl
  | cons c t ih =>
    have hc : c.toNat < 128 := h c (by simp)
    rw [utf8Encode, utf8EncodeChar]
    simp only [hc, if_pos]
    rw [List.singleton_append, utf8Decode.eq_def]
    simp only [if_pos hc]
    rw [ih (fun x hx => h x (List.mem_cons_of_mem c hx))]
    simp [Char.ofNat_toNat]

lemma b64Value_b64Char : ∀ n, n < 64 → b64Value (b64Char n) = some n := by
  decide

lemma b64Char_ne_pad : ∀ n, n < 64 → b64Char n ≠ '=' := by
  decide

lemma b64encode_eq (bs : List Nat) :
    b64encodeBytes bs = (b64data bs).map b64Char ++ List.replicate (b64padLen bs) '=' := by
  induction bs using b64data.induct with
  | case1 => rfl
  | case2 b1 => rfl
  | case3 b1 b2 => rfl
  | case4 b1 b2 b3 rest ih =>
    rw [b64encodeBytes, b64data, b64padLen, ih]
    simp

lemma b64data_lt : ∀ bs : List Nat, (∀ b ∈ bs, b < 256) → ∀ v ∈ b64data bs, v < 64 := by
  intro bs
  induction bs using b64data.induct with
  | case1 => intro _ v hv; simp [b64data] at hv
  | case2 b1 =>
    intro h v hv
    have hb1 := h b1 (by simp)
    simp [b64data] at hv
    rcases hv with rfl | rfl <;> omega
  | case3 b1 b2 =>
    intro h v hv
    have hb1 := h b1 (by simp)
    have hb2 := h b2 (by simp)
    simp [b64data] at hv
    rcases hv with rfl | rfl | rfl <;> omega
  | case4 b1 b2 b3 rest ih =>
    intro h v hv
    have hb1 := h b1 (by simp)
    have hb2 := h b2 (by simp)
    have hb3 := h b3 (by simp)
    simp only [b64data, List.mem_cons] at hv
    rcases hv with rfl | rfl | rfl | rfl | hv'
    · omega
    · omega
    · omega
    · omega
    · exact ih (fun b hb => h b (by simp [hb])) v hv'

lemma b64_len_pad (bs : List Nat) :
    ((b64data bs).length % 4 = 0 ∧ b64padLen bs = 0) ∨
    ((b64data bs).length % 4 = 2 ∧ b64padLen bs = 2) ∨
    ((b64data bs).length % 4 = 3 ∧ b64padLen bs = 1) := by
  induction bs using b64data.induct with
  | case1 => left; simp [b64data, b64padLen]
  | case2 b1 => right; left; simp [b64data, b64padLen]
  | case3 b1 b2 => right; right; simp [b64data, b64padLen]
  | case4 b1 b2 b3 rest ih =>
    simp only [b64data, b64padLen, List.length_cons]
    rcases ih with ⟨h1, h2⟩ | ⟨h1, h2⟩ | ⟨h1, h2⟩
    · left; exact ⟨by omega, h2⟩
    · right; left; exact ⟨by omega, h2⟩
    · right; right; exact ⟨by omega, h2⟩

lemma b64decodeVals_data : ∀ bs : List Nat, (∀ b ∈ bs, b < 256) →
    b64decodeVals (b64data bs) = some bs := by
  intro bs
  induction bs using b64data.induct with
  | case1 => intro _; rfl
  | case2 b1 =>
    intro h
    have hb1 := h b1 (by simp)
    simp only [b64data, b64decodeVals]
    have : b1 / 4 * 4 + b1 % 4 * 16 / 16 = b1 := by omega
    rw [this]
  | case3 b1 b2 =>
    intro h
    have hb1 := h b1 (by simp)
    have hb2 := h b2 (by simp)
    simp only [b64data, b64decodeVals]
    have h1 : b1 / 4 * 4 + (b1 % 4 * 16 + b2 / 16) / 16 = b1 := by omega
    have h2 : (b1 % 4 * 16 + b2 / 16) % 16 * 16 + b2 % 16 * 4 / 4 = b2 := by omega
    rw [h1, h2]
  | case4 b1 b2 b3 rest ih =>
    intro h
    have hb1 := h b1 (by simp)
    have hb2 := h b2 (by simp)
    have hb3 := h b3 (by simp)
    simp only [b64data, b64decodeVals]
    rw [ih (fun b hb => h b (by simp [hb]))]
    have h1 : b1 / 4 * 4 + (b1 % 4 * 16 + b2 / 16) / 16 = b1 := by omega
    have h2 : (b1 % 4 * 16 + b2 / 16) % 16 * 16 + (b2 % 16 * 4 + b3 / 64) / 4 = b2 := by
      omega
    have h3 : (b2 % 16 * 4 + b3 / 64) % 4 * 64 + b3 % 64 = b3 := by omega
    simp [h1, h2, h3]

lemma takeWhile_all_append {p : Char → Bool} {xs ys : List Char}
    (h : ∀ x ∈ xs, p x) : (xs ++ ys).takeWhile p = xs ++ ys.takeWhile p := by
  induction xs with
  | nil => simp
  | cons c t ih =>
    simp only [List.cons_append, List.takeWhile_cons]
    rw [if_pos (h c (List.mem_cons_self c t)),
      ih (fun x hx => h x (List.mem_cons_of_mem c hx))]

theorem b64_roundtrip (bs : List Nat) (h : ∀ b ∈ bs, b < 256) :
    b64decode (b64encodeBytes bs) = some bs := by
  have hlt := b64data_lt bs h
  rw [b64decode, b64encode_eq]
  have hfilter :
      ((b64data bs).map b64Char ++ List.replicate (b64padLen bs) '=').filter
          (fun c => (b64Value c).isSome || c == '=') =
        (b64data bs).map b64Char ++ List.replicate (b64padLen bs) '=' := by
    apply List.filter_eq_self.mpr
    intro a ha
    rcases List.mem_append.mp ha with h' | h'
    · obtain ⟨v, hv, rfl⟩ := List.mem_map.mp h'
      simp [b64Value_b64Char v (hlt v hv)]
    · rw [List.eq_of_mem_replicate h']
      decide
  rw [hfilter]
  have hDne : ∀ c ∈ (b64data bs).map b64Char, (!(c == '=')) = true := by
    intro c hc
    obtain ⟨v, hv, rfl⟩ := List.mem_map.mp hc
    simpa using b64Char_ne_pad v (hlt v hv)
  have htakeR : (List.replicate (b64padLen bs) '=').takeWhile (fun c => !(c == '=')) = [] := by
    cases hb : b64padLen bs <;> simp [List.replicate_succ]
  have htake :
      ((b64data bs).map b64Char ++ List.replicate (b64padLen bs) '=').takeWhile
          (fun c => !(c == '=')) = (b64data bs).map b64Char := by
    rw [takeWhile_all_append hDne, htakeR, List.append_nil]
  rw [htake]
  rw [List.drop_left]
  have hcond : (∀ c ∈ List.replicate (b64padLen bs) '=', c = '=') ∧
      (((b64data bs).map b64Char).length % 4 = 0 ∨
        (((b64data bs).map b64Char).length % 4 = 2 ∧
          2 ≤ (List.replicate (b64padLen bs) '=').length) ∨
        (((b64data bs).map b64Char).length % 4 = 3 ∧
          1 ≤ (List.replicate (b64padLen bs) '=').length)) := by
    refine ⟨fun c hc => List.eq_of_mem_replicate hc, ?_⟩
    rw [List.length_map, List.length_replicate]
    rcases b64_len_pad bs with ⟨h1, h2⟩ | ⟨h1, h2⟩ | ⟨h1, h2⟩ <;> simp [h1, h2]
  rw [if_pos hcond]
  have hmap : ((b64data bs).map b64Char).map (fun c => (b64Value c).getD 0) = b64data bs := by
    rw [List.map_map]
    have hcongr : ∀ v ∈ b64data bs,
        ((fun c => (b64Value c).getD 0) ∘ b64Char) v = id v := by
      intro v hv
      simp [Function.comp, b64Value_b64Char v (hlt v hv)]
    rw [List.map_congr_left hcongr, List.map_id]
  rw [hmap]
  exact b64decodeVals_data bs h

lemma haversine_arg_self (lat lon : ℝ) : haversine_arg lat lon lat lon = 0 := by
  simp [haversine_arg, radians, sub_self]

lemma haversine_km_self (lat lon : ℝ) : haversine_km lat lon lat lon = 0 := by
  rw [haversine_km, haversine_arg_self]
  simp

lemma haversine_km_nonneg (lat1 lon1 lat2 lon2 : ℝ) :
    0 ≤ haversine_km lat1 lon1 lat2 lon2 := by
  rw [haversine_km]
  have h1 := Real.arcsin_nonneg.mpr
    (Real.sqrt_nonneg (haversine_arg lat1 lon1 lat2 lon2))
  have h2 : (0:ℝ) ≤ 2 * 6371.0 := by norm_num
  exact mul_nonneg h2 h1

lemma haversine_arg_bounds (lat1 lon1 lat2 lon2 : ℝ) :
    0 ≤ haversine_arg lat1 lon1 lat2 lon2 ∧ haversine_arg lat1 lon1 lat2 lon2 ≤ 1 := by
  simp only [haversine_arg]
  set a := radians lat1
  set b := radians lat2
  set l := radians (lon2 - lon1)
  have h2 : 2 * ((b - a) / 2) = b - a := by ring
  have hs2 : Real.sin ((b - a) / 2) ^ 2 = 1 / 2 - Real.cos (b - a) / 2 := by
    rw [Real.sin_sq_eq_half_sub, h2]
  have hcos1 := Real.cos_sub b a
  have hcos2 := Real.cos_add a b
  have hge := Real.neg_one_le_cos (a + b)
  have hle := Real.cos_le_one (a + b)
  have ht0 : 0 ≤ Real.sin (l / 2) ^ 2 := sq_nonneg _
  have ht1 : Real.sin (l / 2) ^ 2 ≤ 1 := Real.sin_sq_le_one _
  have hs0 : 0 ≤ Real.sin ((b - a) / 2) ^ 2 := sq_nonneg _
  have hs1 : Real.sin ((b - a) / 2) ^ 2 ≤ 1 := Real.sin_sq_le_one _
  have hkey0 : 0 ≤ Real.sin ((b - a) / 2) ^ 2 + Real.cos a * Real.cos b := by
    nlinarith [hs2, hcos1, hcos2, hge]
  have hkey1 : Real.sin ((b - a) / 2) ^ 2 + Real.cos a * Real.cos b ≤ 1 := by
    nlinarith [hs2, hcos1, hcos2, hle]
  constructor
  · nlinarith [mul_nonneg (by linarith : (0:ℝ) ≤ 1 - Real.sin (l / 2) ^ 2) hs0,
      mul_nonneg ht0 hkey0]
  · nlinarith [mul_nonneg (by linarith : (0:ℝ) ≤ 1 - Real.sin (l / 2) ^ 2)
      (by linarith : (0:ℝ) ≤ 1 - Real.sin ((b - a) / 2) ^ 2),
      mul_nonneg ht0 (by linarith :
        (0:ℝ) ≤ 1 - (Real.sin ((b - a) / 2) ^ 2 + Real.cos a * Real.cos b))]

lemma round2_zero : round2 0 = 0 := by
  simp [round2]

lemma round2_nonneg {x : ℝ} (hx : 0 ≤ x) : 0 ≤ round2 x := by
  rw [round2]
  apply div_nonneg _ (by norm_num)
  have h : (0:ℤ) ≤ round (x * 100) := by
    rw [round_eq]
    apply Int.floor_nonneg.mpr
    nlinarith
  exact_mod_cast h

/-- C4: cursor round-trip: for every order, decoding the encoded cursor gives
back exactly the order's id; encode followed by decode is the identity on
ordering keys. -/
theorem C4_cursor_roundtrip (o : Order) : decode_cursor (encode_cursor o) = some o.id := by
  have hascii := jsonDumpsId_ascii o.id
  have hbytes : ∀ b ∈ utf8Encode (jsonDumpsId o.id), b < 256 := by
    rw [utf8Encode_ascii _ hascii]
    intro b hb
    obtain ⟨c, hc, rfl⟩ := List.mem_map.mp hb
    exact lt_trans (hascii c hc) (by norm_num)
  simp only [encode_cursor, decode_cursor, b64_roundtrip _ hbytes,
    utf8Decode_encode_ascii _ hascii, jsonLoads_dumps]

lemma findMergeScan_cons (lat lon : ℝ) (o : Order) (rest : List Order) :
    findMergeScan lat lon (o :: rest) =
      if withinR lat lon o then some o.id else findMergeScan lat lon rest := rfl

lemma findMergeScan_none (lat lon : ℝ) (l : List Order)
    (h : ∀ o ∈ l, ¬ withinR lat lon o) : findMergeScan lat lon l = none := by
  induction l with
  | nil => rfl
  | cons o rest ih =>
    rw [findMergeScan_cons, if_neg (h o (by simp))]
    exact ih (fun x hx => h x (by simp [hx]))

lemma findMergeScan_spec (lat lon : ℝ) (l : List Order) :
    firstHitIsFirst lat lon l (findMergeScan lat lon l) := by
  induction l with
  | nil => exact Or.inl ⟨rfl, by simp⟩
  | cons o rest ih =>
    by_cases h : withinR lat lon o
    · refine Or.inr ⟨[], o, rest, by simp, ?_, h, by simp⟩
      rw [findMergeScan_cons, if_pos h]
    · rw [firstHitIsFirst, findMergeScan_cons, if_neg h]
      rcases ih with ⟨h1, h2⟩ | ⟨pre, x, post, he, hr, hw, hpre⟩
      · refine Or.inl ⟨h1, ?_⟩
        intro p hp
        rcases List.mem_cons.mp hp with rfl | hp'
        exacts [h, h2 p hp']
      · refine Or.inr ⟨o :: pre, x, post, by rw [List.cons_append, he], hr, hw, ?_⟩
        intro p hp
        rcases List.mem_cons.mp hp with rfl | hp'
        exacts [h, hpre p hp']

/-- C6: ETA not-found behaviour: calculate_order_eta fails (with the
ValueError surfaced as a 404) exactly when no order with the requested id
exists, and returns an ETA result exactly when one does. -/
theorem C6_eta_not_found (db : List Order) (order_id : Int) :
    ((∃ r, calculate_order_eta db order_id = Except.ok r) ↔ ∃ o ∈ db, o.id = order_id) ∧
    ((∃ e, calculate_order_eta db order_id = Except.error e) ↔
      ¬ ∃ o ∈ db, o.id = order_id) := by
  cases hf : db.find? (fun o => o.id == order_id) with
  | none =>
    have hno : ∀ o ∈ db, o.id ≠ order_id := by
      intro o ho
      have := List.find?_eq_none.mp hf o ho
      simpa using this
    constructor
    · simp only [calculate_order_eta, hf]
      constructor
      · rintro ⟨r, hr⟩
        exact Except.noConfusion hr
      · rintro ⟨o, ho, hid⟩
        exact absurd hid (hno o ho)
    · simp only [calculate_order_eta, hf]
      constructor
      · rintro _ ⟨o, ho, hid⟩
        exact (hno o ho) hid
      · intro _
        exact ⟨_, rfl⟩
  | some o =>
    have hid : o.id = order_id := by simpa using List.find?_some hf
    have hmem := List.mem_of_find?_eq_some hf
    constructor
    · simp only [calculate_order_eta, hf]
      exact ⟨fun _ => ⟨o, hmem, hid⟩, fun _ => ⟨_, rfl⟩⟩
    · simp only [calculate_order_eta, hf]
      constructor
      · rintro ⟨e, he⟩
        exact Except.noConfusion he
      · intro hno
        exact absurd ⟨o, hmem, hid⟩ hno

lemma perm_pair {α : Type*} {l : List α} {a b : α} (h : l.Perm [a, b]) :
    l = [a, b] ∨ l = [b, a] := by
  cases l with
  | nil => simpa using h.length_eq
  | cons x t =>
    cases t with
    | nil => simpa using h.length_eq
    | cons y t2 =>
      cases t2 with
      | cons z t3 => simpa using h.length_eq
      | nil =>
        have hx : x ∈ [a, b] := h.mem_iff.mp (by simp)
        rcases List.mem_cons.mp hx with rfl | hx'
        · left
          have hy : [y] = [b] := List.perm_singleton.mp ((List.perm_cons x).mp h)
          simpa using hy
        · have hxb : x = b := by simpa using hx'
          subst hxb
          right
          have hy : [y] = [a] :=
            List.perm_singleton.mp ((List.perm_cons x).mp (h.trans (List.Perm.swap x a [])))
          simpa using hy

/-- C3 (amended): the pending-order query yields the pending orders other
than the subject in ascending created_at order, the relative order of equal
created_at values being unspecified by the code (the query has no id
tie-break); the engine's realized candidate list is one admissible output of
that query and the engine's suggestion is the scan of that list; over every
admissible output, each candidate is pending and differs from the subject,
the scan returns the first candidate within MERGE_RADIUS_KM and stops there,
and none when no candidate qualifies (in particular for an empty pending
set); and when the candidates are exactly A and B with A created strictly
first and A within the radius, every admissible order makes the scan suggest
A, even if B is geometrically closer. -/
theorem C3_merge_first_created_order (db : List Order) (order_id : Int) (subj : Order)
    (hfind : db.find? (fun o => o.id == order_id) = some subj) :
    pendingQueryResult db order_id (pendingCandidates db order_id) ∧
    (∀ r, calculate_order_eta db order_id = Except.ok r →
      r.suggested_merge_with =
        findMergeScan subj.customer.latitude subj.customer.longitude
          (pendingCandidates db order_id)) ∧
    (∀ l, pendingQueryResult db order_id l →
      (∀ o ∈ l, o.status = "pending" ∧ o.id ≠ order_id) ∧
      firstHitIsFirst subj.customer.latitude subj.customer.longitude l
        (findMergeScan subj.customer.latitude subj.customer.longitude l) ∧
      ((∀ o ∈ l, ¬ withinR subj.customer.latitude subj.customer.longitude o) →
        findMergeScan subj.customer.latitude subj.customer.longitude l = none)) ∧
    (∀ l A B, pendingQueryResult db order_id l → l.Perm [A, B] →
      A.created_at < B.created_at →
      withinR subj.customer.latitude subj.customer.longitude A →
      findMergeScan subj.customer.latitude subj.customer.longitude l = some A.id) := by
  refine ⟨⟨List.perm_insertionSort _ _, List.sorted_insertionSort _ _⟩, ?_, ?_, ?_⟩
  · intro r hr
    simp only [calculate_order_eta, hfind] at hr
    injection hr with hr
    subst hr
    rfl
  · intro l hl
    refine ⟨?_, findMergeScan_spec _ _ l, ?_⟩
    · intro o ho
      have hmem : o ∈ db.filter (fun o => o.status == "pending" && o.id != order_id) :=
        hl.1.mem_iff.mp ho
      have hpred := (List.mem_filter.mp hmem).2
      simp at hpred
      exact hpred
    · intro hno
      exact findMergeScan_none _ _ _ hno
  · intro l A B hl hperm hAB hwA
    rcases perm_pair hperm with rfl | rfl
    · rw [findMergeScan_cons, if_pos hwA]
    · exfalso
      have hBA : B.created_at ≤ A.created_at :=
        (List.pairwise_cons.mp hl.2).1 A (by simp)
      omega

/-- C7: merge-suggestion validity: a suggested merge target is the id of a
pending order in the repository, differs from the subject order's id, and its
customer is within MERGE_RADIUS_KM of the subject's customer. -/
theorem C7_merge_validity (db : List Order) (order_id : Int) (subj : Order) (r : OrderETA)
    (m : Int) (hfind : db.find? (fun o => o.id == order_id) = some subj)
    (hok : calculate_order_eta db order_id = Except.ok r)
    (hm : r.suggested_merge_with = some m) :
    ∃ o ∈ db, o.id = m ∧ o.status = "pending" ∧ m ≠ order_id ∧
      withinR subj.customer.latitude subj.customer.longitude o := by
  simp only [calculate_order_eta, hfind] at hok
  injection hok with hok
  subst hok
  simp only at hm
  rcases findMergeScan_spec subj.customer.latitude subj.customer.longitude
      (pendingCandidates db order_id) with ⟨hnone, _⟩ | ⟨pre, o, post, he, hres, hw, _⟩
  · rw [hnone] at hm
    exact Option.noConfusion hm
  · rw [hres] at hm
    have hom : o.id = m := by simpa using hm
    have homem : o ∈ pendingCandidates db order_id := by
      rw [he]
      simp
    rw [pendingCandidates] at homem
    have hmemf := (List.mem_insertionSort _).mp homem
    have hmemdb := (List.mem_filter.mp hmemf).1
    have hpred := (List.mem_filter.mp hmemf).2
    simp at hpred
    exact ⟨o, hmemdb, hom, hpred.1, hom ▸ hpred.2, hw⟩

/-- C8: zero-distance edge case: when the subject customer's coordinate equals
the warehouse coordinate, the ETA result has distance_km, eta_minutes and
co2_grams all exactly 0, and when additionally no candidate is within the
merge radius the suggestion is null. -/
theorem C8_zero_distance (db : List Order) (order_id : Int) (subj : Order)
    (hfind : db.find? (fun o => o.id == order_id) = some subj)
    (hlat : subj.customer.latitude = WAREHOUSE_LAT)
    (hlon : subj.customer.longitude = WAREHOUSE_LON) :
    ∃ r, calculate_order_eta db order_id = Except.ok r ∧
      r.distance_km = 0 ∧ r.eta_minutes = 0 ∧ r.co2_grams = 0 ∧
      ((∀ o ∈ pendingCandidates db order_id,
          ¬ withinR subj.customer.latitude subj.customer.longitude o) →
        r.suggested_merge_with = none) := by
  simp only [calculate_order_eta, hfind, hlat, hlon, haversine_km_self, zero_div,
    zero_mul, round2_zero]
  refine ⟨_, rfl, rfl, rfl, rfl, ?_⟩
  intro hno
  exact findMergeScan_none _ _ _ hno

/-- C9: non-negativity: haversine_km is non-negative for all real inputs, its
asin/sqrt argument always lies in [0, 1] (so the float code never leaves the
domain of sqrt and asin), and every successful ETA result has non-negative
distance_km, eta_minutes and co2_grams. -/
theorem C9_nonneg :
    (∀ lat1 lon1 lat2 lon2 : ℝ,
        0 ≤ haversine_km lat1 lon1 lat2 lon2 ∧
        0 ≤ haversine_arg lat1 lon1 lat2 lon2 ∧
        haversine_arg lat1 lon1 lat2 lon2 ≤ 1) ∧
    ∀ (db : List Order) (order_id : Int) (r : OrderETA),
      calculate_order_eta db order_id = Except.ok r →
      0 ≤ r.distance_km ∧ 0 ≤ r.eta_minutes ∧ 0 ≤ r.co2_grams := by
  constructor
  · intro lat1 lon1 lat2 lon2
    exact ⟨haversine_km_nonneg lat1 lon1 lat2 lon2,
      (haversine_arg_bounds lat1 lon1 lat2 lon2).1,
      (haversine_arg_bounds lat1 lon1 lat2 lon2).2⟩
  · intro db order_id r hok
    cases hf : db.find? (fun o => o.id == order_id) with
    | none =>
      simp only [calculate_order_eta, hf] at hok
      exact Except.noConfusion hok
    | some o =>
      simp only [calculate_order_eta, hf] at hok
      injection hok with hok
      subst hok
      have hd := haversine_km_nonneg WAREHOUSE_LAT WAREHOUSE_LON
        o.customer.latitude o.customer.longitude
      refine ⟨round2_nonneg hd, round2_nonneg ?_, round2_nonneg ?_⟩
      · apply div_nonneg hd
        norm_num [AVG_SPEED_KM_PER_MIN]
      · apply mul_nonneg hd
        norm_num [CO2_PER_KM_G]

lemma mkOrder_id (i c : Int) (st : String) (lat lon : ℝ) : (mkOrder i c st lat lon).id = i := rfl

lemma mkOrder_status (i c : Int) (st : String) (lat lon : ℝ) :
    (mkOrder i c st lat lon).status = st := rfl

lemma mkOrder_created (i c : Int) (st : String) (lat lon : ℝ) :
    (mkOrder i c st lat lon).created_at = c := rfl

lemma mkOrder_lat (i c : Int) (st : String) (lat lon : ℝ) :
    (mkOrder i c st lat lon).customer.latitude = lat := rfl

lemma mkOrder_lon (i c : Int) (st : String) (lat lon : ℝ) :
    (mkOrder i c st lat lon).customer.longitude = lon := rfl

/-- C5: malformed-cursor leniency: decoding is total, a token that fails to
decode (such as garbage-not-base64) yields the absent result, and the
paginator then behaves exactly as if no cursor had been supplied. -/
theorem C5_malformed_cursor (db : List Order) (limit : Nat) (s : List Char)
    (h : decode_cursor s = none) :
    decode_cursor ("garbage-not-base64".data) = none ∧
    get_orders_cursor db limit (some s) = get_orders_cursor db limit none := by
  constructor
  · decide
  · simp [get_orders_cursor, h]

theorem C5_witness :
    decode_cursor ("garbage-not-base64".data) = none ∧
    get_orders_cursor [] 1 (some ("garbage-not-base64".data)) =
      get_orders_cursor [] 1 none :=
  C5_malformed_cursor [] 1 ("garbage-not-base64".data) (by decide)

/-- C10: a well-formed cursor that decodes to the falsy key 0 is silently
treated exactly like an absent cursor: no id filter is applied and pagination
restarts from the first row. -/
theorem C10_zero_cursor (db : List Order) (limit : Nat) (s : List Char)
    (h : decode_cursor s = some 0) :
    get_orders_cursor db limit (some s) = get_orders_cursor db limit none := by
  simp [get_orders_cursor, h]

theorem C10_witness :
    get_orders_cursor db10 1 (some (encode_cursor zeroIdOrder)) =
      get_orders_cursor db10 1 none :=
  C10_zero_cursor db10 1 (encode_cursor zeroIdOrder) (by decide)

/-- C1: the claimed pagination exhaustiveness fails on the code: with orders
1, 2, 3, limit 3 = N does return all rows with a null cursor, but with
limit 2 = N - 1 the first page returns rows 1, 2 with a non-null cursor and
the page fetched with that cursor is empty instead of holding the one
remaining row: row 3 is never yielded, so paging repeats the claim's loop yet
skips a row. -/
theorem C1_pagination_not_exhaustive :
    (get_orders_cursor pagDb 3 none).1.map Order.id = [1, 2, 3] ∧
    (get_orders_cursor pagDb 3 none).2 = none ∧
    (get_orders_cursor pagDb 2 none).1.map Order.id = [1, 2] ∧
    (get_orders_cursor pagDb 2 none).2 ≠ none ∧
    (get_orders_cursor pagDb 2 ((get_orders_cursor pagDb 2 none).2)).1.map Order.id = [] := by
  decide

/-- C2: the paginator fetches limit + 1 rows and returns at most limit, but
next_cursor is the encoding of the id of the dropped (limit + 1)-th row, not
of the last kept row: with rows 1, 2, 3 and limit 2 the kept rows are 1 and 2
while the cursor decodes to 3. -/
theorem C2_cursor_encodes_dropped_row :
    (get_orders_cursor pagDb 2 none).1.map Order.id = [1, 2] ∧
    (get_orders_cursor pagDb 2 none).2 = some (encode_cursor (mkOrder 3 3 "new" 0 0)) ∧
    ((get_orders_cursor pagDb 2 none).2.bind decode_cursor) = some 3 := by
  decide

/-- C3 (counterexample): with two pending candidates sharing one created_at
value (ids 2 and 3), the id-descending sequence is an admissible output of
the ORDER BY created_at query that is not in ascending (created_at, id)
order, and the two admissible outputs make the scan suggest different orders
(id 3 versus id 2), so the code neither iterates nor selects as the claim
states when created_at values tie. -/
theorem C3_counterexample :
    pendingQueryResult tieDb 1
      [mkOrder 3 7 "pending" WAREHOUSE_LAT WAREHOUSE_LON,
        mkOrder 2 7 "pending" WAREHOUSE_LAT WAREHOUSE_LON] ∧
    ¬ ([mkOrder 3 7 "pending" WAREHOUSE_LAT WAREHOUSE_LON,
        mkOrder 2 7 "pending" WAREHOUSE_LAT WAREHOUSE_LON].Pairwise createdThenId) ∧
    findMergeScan WAREHOUSE_LAT WAREHOUSE_LON
      [mkOrder 3 7 "pending" WAREHOUSE_LAT WAREHOUSE_LON,
        mkOrder 2 7 "pending" WAREHOUSE_LAT WAREHOUSE_LON] = some 3 ∧
    pendingQueryResult tieDb 1
      [mkOrder 2 7 "pending" WAREHOUSE_LAT WAREHOUSE_LON,
        mkOrder 3 7 "pending" WAREHOUSE_LAT WAREHOUSE_LON] ∧
    findMergeScan WAREHOUSE_LAT WAREHOUSE_LON
      [mkOrder 2 7 "pending" WAREHOUSE_LAT WAREHOUSE_LON,
        mkOrder 3 7 "pending" WAREHOUSE_LAT WAREHOUSE_LON] = some 2 := by
  have hfilter : tieDb.filter (fun o => o.status == "pending" && o.id != 1) =
      [mkOrder 2 7 "pending" WAREHOUSE_LAT WAREHOUSE_LON,
        mkOrder 3 7 "pending" WAREHOUSE_LAT WAREHOUSE_LON] := rfl
  have hw2 : withinR WAREHOUSE_LAT WAREHOUSE_LON
      (mkOrder 2 7 "pending" WAREHOUSE_LAT WAREHOUSE_LON) := by
    show haversine_km WAREHOUSE_LAT WAREHOUSE_LON WAREHOUSE_LAT WAREHOUSE_LON ≤
      MERGE_RADIUS_KM
    rw [haversine_km_self]
    norm_num [MERGE_RADIUS_KM]
  have hw3 : withinR WAREHOUSE_LAT WAREHOUSE_LON
      (mkOrder 3 7 "pending" WAREHOUSE_LAT WAREHOUSE_LON) := by
    show haversine_km WAREHOUSE_LAT WAREHOUSE_LON WAREHOUSE_LAT WAREHOUSE_LON ≤
      MERGE_RADIUS_KM
    rw [haversine_km_self]
    norm_num [MERGE_RADIUS_KM]
  refine ⟨⟨?_, ?_⟩, ?_, ?_, ⟨?_, ?_⟩, ?_⟩
  · rw [hfilter]
    exact List.Perm.swap _ _ _
  · simp [List.pairwise_cons, mkOrder_created]
  · intro h
    have hx := (List.pairwise_cons.mp h).1 _ (List.mem_cons_self _ _)
    simp [createdThenId, mkOrder_created, mkOrder_id] at hx
  · rw [findMergeScan_cons, if_pos hw3, mkOrder_id]
  · rw [hfilter]
  · simp [List.pairwise_cons, mkOrder_created]
  · rw [findMergeScan_cons, if_pos hw2, mkOrder_id]

theorem C3_witness :
    pendingQueryResult etaDb3 1 (pendingCandidates etaDb3 1) ∧
    (∀ r, calculate_order_eta etaDb3 1 = Except.ok r →
      r.suggested_merge_with =
        findMergeScan (mkOrder 1 0 "pending" WAREHOUSE_LAT WAREHOUSE_LON).customer.latitude
          (mkOrder 1 0 "pending" WAREHOUSE_LAT WAREHOUSE_LON).customer.longitude
          (pendingCandidates etaDb3 1)) ∧
    (∀ l, pendingQueryResult etaDb3 1 l →
      (∀ o ∈ l, o.status = "pending" ∧ o.id ≠ 1) ∧
      firstHitIsFirst
        (mkOrder 1 0 "pending" WAREHOUSE_LAT WAREHOUSE_LON).customer.latitude
        (mkOrder 1 0 "pending" WAREHOUSE_LAT WAREHOUSE_LON).customer.longitude l
        (findMergeScan
          (mkOrder 1 0 "pending" WAREHOUSE_LAT WAREHOUSE_LON).customer.latitude
          (mkOrder 1 0 "pending" WAREHOUSE_LAT WAREHOUSE_LON).customer.longitude l) ∧
      ((∀ o ∈ l, ¬ withinR
          (mkOrder 1 0 "pending" WAREHOUSE_LAT WAREHOUSE_LON).customer.latitude
          (mkOrder 1 0 "pending" WAREHOUSE_LAT WAREHOUSE_LON).customer.longitude o) →
        findMergeScan
          (mkOrder 1 0 "pending" WAREHOUSE_LAT WAREHOUSE_LON).customer.latitude
          (mkOrder 1 0 "pending" WAREHOUSE_LAT WAREHOUSE_LON).customer.longitude l =
          none)) ∧
    (∀ l A B, pendingQueryResult etaDb3 1 l → l.Perm [A, B] →
      A.created_at < B.created_at →
      withinR (mkOrder 1 0 "pending" WAREHOUSE_LAT WAREHOUSE_LON).customer.latitude
        (mkOrder 1 0 "pending" WAREHOUSE_LAT WAREHOUSE_LON).customer.longitude A →
      findMergeScan (mkOrder 1 0 "pending" WAREHOUSE_LAT WAREHOUSE_LON).customer.latitude
        (mkOrder 1 0 "pending" WAREHOUSE_LAT WAREHOUSE_LON).customer.longitude l =
        some A.id) :=
  C3_merge_first_created_order etaDb3 1
    (mkOrder 1 0 "pending" WAREHOUSE_LAT WAREHOUSE_LON) rfl

lemma calc_eta_db7 : calculate_order_eta etaDb7 1 = Except.ok ⟨1, 0, 0, 0, some 2⟩ := by
  have hfind : etaDb7.find? (fun o => o.id == 1) =
      some (mkOrder 1 0 "pending" WAREHOUSE_LAT WAREHOUSE_LON) := rfl
  have hpc : pendingCandidates etaDb7 1 =
      [mkOrder 2 5 "pending" WAREHOUSE_LAT WAREHOUSE_LON] := rfl
  have hw : withinR WAREHOUSE_LAT WAREHOUSE_LON
      (mkOrder 2 5 "pending" WAREHOUSE_LAT WAREHOUSE_LON) := by
    show haversine_km WAREHOUSE_LAT WAREHOUSE_LON WAREHOUSE_LAT WAREHOUSE_LON ≤
      MERGE_RADIUS_KM
    rw [haversine_km_self]
    norm_num [MERGE_RADIUS_KM]
  simp only [calculate_order_eta, hfind, hpc, mkOrder_lat, mkOrder_lon,
    haversine_km_self, zero_div, zero_mul, round2_zero]
  rw [findMergeScan_cons, if_pos hw, mkOrder_id]

theorem C7_witness :
    ∃ o ∈ etaDb7, o.id = 2 ∧ o.status = "pending" ∧ (2:Int) ≠ 1 ∧
      withinR (mkOrder 1 0 "pending" WAREHOUSE_LAT WAREHOUSE_LON).customer.latitude
        (mkOrder 1 0 "pending" WAREHOUSE_LAT WAREHOUSE_LON).customer.longitude o :=
  C7_merge_validity etaDb7 1 (mkOrder 1 0 "pending" WAREHOUSE_LAT WAREHOUSE_LON)
    ⟨1, 0, 0, 0, some 2⟩ 2 rfl calc_eta_db7 rfl

theorem C8_witness :
    ∃ r, calculate_order_eta etaDb8 1 = Except.ok r ∧
      r.distance_km = 0 ∧ r.eta_minutes = 0 ∧ r.co2_grams = 0 ∧
      ((∀ o ∈ pendingCandidates etaDb8 1,
          ¬ withinR (mkOrder 1 0 "new" WAREHOUSE_LAT WAREHOUSE_LON).customer.latitude
            (mkOrder 1 0 "new" WAREHOUSE_LAT WAREHOUSE_LON).customer.longitude o) →
        r.suggested_merge_with = none) :=
  C8_zero_distance etaDb8 1 (mkOrder 1 0 "new" WAREHOUSE_LAT WAREHOUSE_LON) rfl rfl rfl

lemma calc_eta_db9 : calculate_order_eta etaDb9 4 = Except.ok ⟨4, 0, 0, 0, none⟩ := by
  have hfind : etaDb9.find? (fun o => o.id == 4) =
      some (mkOrder 4 0 "new" WAREHOUSE_LAT WAREHOUSE_LON) := rfl
  have hpc : pendingCandidates etaDb9 4 = [] := rfl
  simp only [calculate_order_eta, hfind, hpc, mkOrder_lat, mkOrder_lon,
    haversine_km_self, zero_div, zero_mul, round2_zero]
  rfl

theorem C9_witness :
    0 ≤ (⟨4, 0, 0, 0, none⟩ : OrderETA).distance_km ∧
    0 ≤ (⟨4, 0, 0, 0, none⟩ : OrderETA).eta_minutes ∧
    0 ≤ (⟨4, 0, 0, 0, none⟩ : OrderETA).co2_grams :=
  C9_nonneg.2 etaDb9 4 ⟨4, 0, 0, 0, none⟩ calc_eta_db9

theorem C4_witness : decode_cursor (encode_cursor (mkOrder 9 9 "new" 0 0)) = some 9 :=
  C4_cursor_roundtrip (mkOrder 9 9 "new" 0 0)

theorem C6_witness :
    ((∃ r, calculate_order_eta [] 1 = Except.ok r) ↔ ∃ o ∈ ([] : List Order), o.id = 1) ∧
    ((∃ e, calculate_order_eta [] 1 = Except.error e) ↔
      ¬ ∃ o ∈ ([] : List Order), o.id = 1) :=
  C6_eta_not_found [] 1

end OrderApi

